import Mathlib

/-!
# Verification of the SenseBox dashboard script (`src/app/app.py`)

Shallow embedding of the one-file Python program: JSON values, the Python
dynamic-semantics helpers the script relies on (truthiness, `in`,
subscripting, `dict.get`, `float(...)`), the ingestion pipeline
(metadata validation, sensor registry, per-sensor fetch/normalize/insert
loop with `ON CONFLICT DO NOTHING`), the dashboard read query and the
chart generation.  External effects (HTTP fetches, database errors) are
supplied by an oracle (`World`), so each run of the script is a pure
function of the oracle.
-/

set_option maxHeartbeats 1000000

/-- Python exception classes distinguished by the script's handlers. -/
inductive PyErr where
  | requestError   -- requests.exceptions.RequestException
  | dbError        -- psycopg2.Error
  | valueError     -- ValueError
  | typeError      -- TypeError
  | keyError       -- KeyError
  | attrError      -- AttributeError
  deriving DecidableEq, Repr

/-- JSON values as delivered by `response.json()` (Python `None`/`bool`/
number/`str`/`list`/`dict`).  JSON numbers are modelled as rationals. -/
inductive JVal where
  | jnull
  | jbool (b : Bool)
  | jnum  (q : ℚ)
  | jstr  (s : String)
  | jarr  (elems : List JVal)
  | jobj  (fields : List (String × JVal))
  deriving Repr

mutual

/-- Decidable equality on JSON values (the `deriving` handler does not
support this nested inductive, so it is spelled out). -/
def JVal.deq : (a b : JVal) → Decidable (a = b)
  | .jnull, .jnull => isTrue rfl
  | .jbool a, .jbool c =>
    match decEq a c with
    | isTrue h => isTrue (h ▸ rfl)
    | isFalse h => isFalse (fun hh => h (JVal.jbool.inj hh))
  | .jnum a, .jnum c =>
    match decEq a c with
    | isTrue h => isTrue (h ▸ rfl)
    | isFalse h => isFalse (fun hh => h (JVal.jnum.inj hh))
  | .jstr a, .jstr c =>
    match decEq a c with
    | isTrue h => isTrue (h ▸ rfl)
    | isFalse h => isFalse (fun hh => h (JVal.jstr.inj hh))
  | .jarr xs, .jarr ys =>
    match JVal.deqList xs ys with
    | isTrue h => isTrue (h ▸ rfl)
    | isFalse h => isFalse (fun hh => h (JVal.jarr.inj hh))
  | .jobj xs, .jobj ys =>
    match JVal.deqFields xs ys with
    | isTrue h => isTrue (h ▸ rfl)
    | isFalse h => isFalse (fun hh => h (JVal.jobj.inj hh))
  | .jnull, .jbool _ => isFalse (fun h => by cases h)
  | .jnull, .jnum _ => isFalse (fun h => by cases h)
  | .jnull, .jstr _ => isFalse (fun h => by cases h)
  | .jnull, .jarr _ => isFalse (fun h => by cases h)
  | .jnull, .jobj _ => isFalse (fun h => by cases h)
  | .jbool _, .jnull => isFalse (fun h => by cases h)
  | .jbool _, .jnum _ => isFalse (fun h => by cases h)
  | .jbool _, .jstr _ => isFalse (fun h => by cases h)
  | .jbool _, .jarr _ => isFalse (fun h => by cases h)
  | .jbool _, .jobj _ => isFalse (fun h => by cases h)
  | .jnum _, .jnull => isFalse (fun h => by cases h)
  | .jnum _, .jbool _ => isFalse (fun h => by cases h)
  | .jnum _, .jstr _ => isFalse (fun h => by cases h)
  | .jnum _, .jarr _ => isFalse (fun h => by cases h)
  | .jnum _, .jobj _ => isFalse (fun h => by cases h)
  | .jstr _, .jnull => isFalse (fun h => by cases h)
  | .jstr _, .jbool _ => isFalse (fun h => by cases h)
  | .jstr _, .jnum _ => isFalse (fun h => by cases h)
  | .jstr _, .jarr _ => isFalse (fun h => by cases h)
  | .jstr _, .jobj _ => isFalse (fun h => by cases h)
  | .jarr _, .jnull => isFalse (fun h => by cases h)
  | .jarr _, .jbool _ => isFalse (fun h => by cases h)
  | .jarr _, .jnum _ => isFalse (fun h => by cases h)
  | .jarr _, .jstr _ => isFalse (fun h => by cases h)
  | .jarr _, .jobj _ => isFalse (fun h => by cases h)
  | .jobj _, .jnull => isFalse (fun h => by cases h)
  | .jobj _, .jbool _ => isFalse (fun h => by cases h)
  | .jobj _, .jnum _ => isFalse (fun h => by cases h)
  | .jobj _, .jstr _ => isFalse (fun h => by cases h)
  | .jobj _, .jarr _ => isFalse (fun h => by cases h)

/-- Decidable equality on lists of JSON values. -/
def JVal.deqList : (a b : List JVal) → Decidable (a = b)
  | [], [] => isTrue rfl
  | [], _ :: _ => isFalse (fun h => by cases h)
  | _ :: _, [] => isFalse (fun h => by cases h)
  | x :: xs, y :: ys =>
    match JVal.deq x y, JVal.deqList xs ys with
    | isTrue h1, isTrue h2 => isTrue (by rw [h1, h2])
    | isFalse h1, _ => isFalse (fun h => h1 (List.cons.inj h).1)
    | _, isFalse h2 => isFalse (fun h => h2 (List.cons.inj h).2)

/-- Decidable equality on JSON object field lists. -/
def JVal.deqFields : (a b : List (String × JVal)) → Decidable (a = b)
  | [], [] => isTrue rfl
  | [], _ :: _ => isFalse (fun h => by cases h)
  | _ :: _, [] => isFalse (fun h => by cases h)
  | (k, v) :: xs, (k2, v2) :: ys =>
    match decEq k k2, JVal.deq v v2, JVal.deqFields xs ys with
    | isTrue h0, isTrue h1, isTrue h2 => isTrue (by rw [h0, h1, h2])
    | isFalse h0, _, _ =>
      isFalse (fun h => h0 (congrArg Prod.fst (List.cons.inj h).1))
    | _, isFalse h1, _ =>
      isFalse (fun h => h1 (congrArg Prod.snd (List.cons.inj h).1))
    | _, _, isFalse h2 => isFalse (fun h => h2 (List.cons.inj h).2)

end

instance : DecidableEq JVal := JVal.deq

namespace PyDyn

/-- Python truthiness (`if not metadata`, `if sensor_data`, `if unit`, ...). -/
def pyTruthy : JVal → Bool
  | .jnull => false
  | .jbool b => b
  | .jnum q => decide (q ≠ 0)
  | .jstr s => decide (s ≠ "")
  | .jarr xs => !xs.isEmpty
  | .jobj fs => !fs.isEmpty

/-- Python `key in container` for a string `key`: dict key membership,
list element membership, substring test on strings; `TypeError` on
non-containers. -/
def pyContains (container : JVal) (key : String) : Except PyErr Bool :=
  match container with
  | .jobj fs => .ok (fs.any (fun p => p.1 == key))
  | .jarr xs => .ok (xs.any (fun v => match v with
      | .jstr t => t == key
      | _ => false))
  | .jstr hay => .ok (decide (2 ≤ (hay.splitOn key).length))
  | _ => .error .typeError

/-- Python `container[key]` for a string `key`: dict lookup (`KeyError`
when absent), `TypeError` on everything else (list and string indices
must be integers). -/
def pySubscript (container : JVal) (key : String) : Except PyErr JVal :=
  match container with
  | .jobj fs =>
    match fs.find? (fun p => p.1 == key) with
    | some p => .ok p.2
    | none => .error .keyError
  | _ => .error .typeError

/-- Python `d.get(key, default)`: defined on dicts only
(`AttributeError` otherwise). -/
def pyGet (v : JVal) (key : String) (dflt : JVal) : Except PyErr JVal :=
  match v with
  | .jobj fs => .ok (((fs.find? (fun p => p.1 == key)).map (·.2)).getD dflt)
  | _ => .error .attrError

/-- Python iteration `for x in v`: lists yield elements, strings yield
their characters, dicts yield their keys; `TypeError` otherwise. -/
def pyIter : JVal → Except PyErr (List JVal)
  | .jarr xs => .ok xs
  | .jstr s => .ok (s.data.map (fun c => .jstr (String.mk [c])))
  | .jobj fs => .ok (fs.map (fun p => .jstr p.1))
  | _ => .error .typeError

/-- Value of a (non-empty) run of decimal digit characters. -/
def digitsVal (cs : List Char) : ℕ :=
  cs.foldl (fun a c => a * 10 + (c.toNat - 48)) 0

/-- Non-empty and all ASCII decimal digits. -/
def isDigits (cs : List Char) : Bool :=
  !cs.isEmpty && cs.all (fun c => c.isDigit)

/-- Strip leading and trailing whitespace (Python `float` ignores
surrounding whitespace). -/
def stripWs (cs : List Char) : List Char :=
  ((cs.dropWhile Char.isWhitespace).reverse.dropWhile Char.isWhitespace).reverse

/-- Optional sign prefix; returns (negative?, rest). -/
def splitSign : List Char → Bool × List Char
  | '+' :: r => (false, r)
  | '-' :: r => (true, r)
  | r => (false, r)

/-- Unsigned decimal mantissa `digits`, `digits.`, `digits.digits` or
`.digits`, returned as (integer value of all digits, number of
fractional digits); the mantissa denotes `value / 10 ^ fracDigits`. -/
def parseMantissa (cs : List Char) : Option (ℕ × ℕ) :=
  match cs.splitOn '.' with
  | [ip] => if isDigits ip then some (digitsVal ip, 0) else none
  | [ip, fp] =>
    if (ip.isEmpty || ip.all (fun c => c.isDigit)) &&
       (fp.isEmpty || fp.all (fun c => c.isDigit)) &&
       !(ip.isEmpty && fp.isEmpty) then
      some (digitsVal ip * 10 ^ fp.length + digitsVal fp, fp.length)
    else none
  | _ => none

/-- The rational `m * 10 ^ e`, built with `Rat.divInt` over integer
arithmetic only. -/
def decValue (m : ℤ) (e : ℤ) : ℚ :=
  if 0 ≤ e then Rat.divInt (m * (10 : ℤ) ^ e.toNat) 1
  else Rat.divInt m ((10 : ℤ) ^ (-e).toNat)

/-- Signed integer exponent part after `e`/`E`. -/
def parseExponent (cs : List Char) : Option ℤ :=
  let (neg, rest) := splitSign cs
  if isDigits rest then
    some (if neg then -(digitsVal rest : ℤ) else (digitsVal rest : ℤ))
  else none

/-- Model of CPython `float(s)` on ordinary numeric literals: optional
surrounding whitespace, optional sign, decimal mantissa, optional
`e`/`E` exponent.  (Non-finite literals such as `inf`/`nan`, digit
underscores and non-ASCII digits are outside the modelled fragment; no
claim depends on them.)  The result is exact (rational) rather than a
binary double: the claims concern parse success, not rounding. -/
def pyFloatStr (s : String) : Option ℚ :=
  let cs := stripWs s.data
  let (neg, body) := splitSign cs
  let parts : Option ((ℕ × ℕ) × ℤ) :=
    match body.splitOn 'e' with
    | [m] =>
      match m.splitOn 'E' with
      | [m1] => (parseMantissa m1).map (fun mv => (mv, 0))
      | [m1, ex] => do
        let mv ← parseMantissa m1
        let e ← parseExponent ex
        pure (mv, e)
      | _ => none
    | [m, ex] => do
      let mv ← parseMantissa m
      let e ← parseExponent ex
      pure (mv, e)
    | _ => none
  parts.map (fun p =>
    let m : ℤ := if neg then -(p.1.1 : ℤ) else (p.1.1 : ℤ)
    decValue m (p.2 - (p.1.2 : ℤ)))

/-- Python `float(v)` for `v ≠ None` (the script guards the `None` case):
numbers and booleans convert, strings parse or raise `ValueError`,
containers and `None` raise `TypeError`. -/
def pyFloat : JVal → Except PyErr ℚ
  | .jbool b => .ok (if b then 1 else 0)
  | .jnum q => .ok q
  | .jstr s =>
    match pyFloatStr s with
    | some q => .ok q
    | none => .error .valueError
  | .jnull => .error .typeError
  | .jarr _ => .error .typeError
  | .jobj _ => .error .typeError

/-- Python `str(v)` as used by the dashboard f-strings.  Committed text
columns only ever hold strings or SQL `NULL` (read back as `None`), so
only the `jstr`/`jnull` cases are exercised; the remaining cases are a
best-effort rendering. -/
def pyStr : JVal → String
  | .jstr s => s
  | .jnull => "None"
  | .jbool b => if b then "True" else "False"
  | .jnum q => toString q
  | .jarr _ => "[...]"
  | .jobj _ => "\x7b...\x7d"

end PyDyn

export PyDyn (pyTruthy pyContains pySubscript pyGet pyIter pyFloat pyFloatStr pyStr)

/-! ## Data model: sensor registry and the `sensor_data` table -/

/-- Per-sensor metadata stored by the registry comprehension
(`app.py` lines 41-48): `type`, `unit`, `icon`. -/
structure Details where
  type : JVal
  unit : JVal
  icon : JVal
  deriving DecidableEq, Repr

/-- The value part of one registry entry (`app.py` lines 42-46):
`{'type': s.get('sensorType', 'unknown'), 'unit': s.get('unit', ''),
'icon': s.get('icon', None)}`.  `.get` is only defined on dicts. -/
def detailsOf (s : JVal) : Except PyErr Details :=
  match pyGet s "sensorType" (.jstr "unknown") with
  | .error e => .error e
  | .ok t =>
    match pyGet s "unit" (.jstr "") with
    | .error e => .error e
    | .ok u =>
      match pyGet s "icon" .jnull with
      | .error e => .error e
      | .ok i => .ok ⟨t, u, i⟩

/-- The sensor registry: a Python dict keyed by `s['_id']`, in insertion
order. -/
abbrev Registry := List (JVal × Details)

/-- Python dict insert: an existing key keeps its position and gets the
new value, a new key is appended. -/
def dictInsert (reg : Registry) (k : JVal) (v : Details) : Registry :=
  if reg.any (fun p => p.1 = k) then
    reg.map (fun p => if p.1 = k then (k, v) else p)
  else reg ++ [(k, v)]

/-- One step of the dict comprehension (`app.py` line 47): entries
without an `'_id'` key are filtered out; for kept entries the key
`s['_id']` and the details are evaluated (either may raise). -/
def regStep (reg : Registry) (s : JVal) : Except PyErr Registry :=
  match pyContains s "_id" with
  | .error e => .error e
  | .ok false => .ok reg
  | .ok true =>
    match pySubscript s "_id" with
    | .error e => .error e
    | .ok k =>
      match detailsOf s with
      | .error e => .error e
      | .ok d => .ok (dictInsert reg k d)

/-- The registry comprehension over the tail of the sensor list,
starting from an accumulated dict. -/
def buildRegistryFrom (reg : Registry) : List JVal → Except PyErr Registry
  | [] => .ok reg
  | s :: ss =>
    match regStep reg s with
    | .error e => .error e
    | .ok reg2 => buildRegistryFrom reg2 ss

/-- `sensor_details` (`app.py` lines 41-48) as a function of the
iterated `metadata['sensors']` elements. -/
def buildRegistry (ss : List JVal) : Except PyErr Registry :=
  buildRegistryFrom [] ss

/-- One row of the `sensor_data` table, in the column order of the
insert statement (`app.py` lines 72-80 and 86-90).  `box_id` is the
`SENSEBOX_ID` environment value (`None` when unset); `measurement` is
`DOUBLE PRECISION`, nullable. -/
structure Row where
  timestamp : JVal
  box_id : Option String
  sensor_id : JVal
  measurement : Option ℚ
  unit : JVal
  sensor_type : JVal
  icon : JVal
  deriving DecidableEq, Repr

/-- The table contents, in physical insertion order. -/
abbrev Db := List Row

/-- The conflict target of the insert: `(timestamp, box_id, sensor_id)`
(`app.py` line 89, backed by the unique constraint). -/
def rowKey (r : Row) : JVal × Option String × JVal :=
  (r.timestamp, r.box_id, r.sensor_id)

/-- One row of `executemany` with `ON CONFLICT (timestamp, box_id,
sensor_id) DO NOTHING`: a row whose key is already present is silently
discarded, otherwise it is appended. -/
def insertRow (db : Db) (r : Row) : Db :=
  if db.any (fun x => rowKey x = rowKey r) then db else db ++ [r]

/-- `cursor.executemany` of the insert statement over a batch
(`app.py` line 91): the statement runs once per tuple, in order. -/
def insertMany (db : Db) (rs : List Row) : Db :=
  rs.foldl insertRow db

/-! ## Per-sensor series normalization (`app.py` lines 63-83) -/

/-- Fate of one data point in the normalization loop: appended to
`data_to_insert`, or skipped (`warned` records whether line 82's
warning was printed; points failing the line-68 field check are skipped
without any log output). -/
inductive PointOutcome where
  | added (r : Row)
  | skipped (warned : Bool)
  deriving DecidableEq, Repr

/-- The `try` body, lines 69-80: evaluate
`float(item['value']) if item['value'] is not None else None`
(the subscript is evaluated for the test and again in the branch),
then the tuple, which evaluates `item['createdAt']`. -/
def parseAttempt (box : Option String) (sid : JVal) (d : Details)
    (item : JVal) : Except PyErr Row :=
  match pySubscript item "value" with
  | .error e => .error e
  | .ok v =>
    if v = .jnull then
      match pySubscript item "createdAt" with
      | .error e => .error e
      | .ok ts => .ok ⟨ts, box, sid, none, d.unit, d.type, d.icon⟩
    else
      match pySubscript item "value" with
      | .error e => .error e
      | .ok v2 =>
        match pyFloat v2 with
        | .error e => .error e
        | .ok q =>
          match pySubscript item "createdAt" with
          | .error e => .error e
          | .ok ts => .ok ⟨ts, box, sid, some q, d.unit, d.type, d.icon⟩

/-- The `except (ValueError, TypeError)` handler, line 82: the warning
f-string evaluates `item['value']` and `item['createdAt']`; an
exception there propagates out of the point loop. -/
def warnSkip (item : JVal) : Except PyErr PointOutcome :=
  match pySubscript item "value" with
  | .error e => .error e
  | .ok _ =>
    match pySubscript item "createdAt" with
    | .error e => .error e
    | .ok _ => .ok (.skipped true)

/-- Lines 66-82 for one `item`: the field-presence check (line 68, with
Python's short-circuit `and`), then the guarded conversion.  A raised
`ValueError`/`TypeError` is converted to a warned skip; any other
exception propagates (and will abort the whole sensor). -/
def parsePoint (box : Option String) (sid : JVal) (d : Details)
    (item : JVal) : Except PyErr PointOutcome :=
  match pyContains item "createdAt" with
  | .error e => .error e
  | .ok false => .ok (.skipped false)
  | .ok true =>
    match pyContains item "value" with
    | .error e => .error e
    | .ok false => .ok (.skipped false)
    | .ok true =>
      match parseAttempt box sid d item with
      | .ok r => .ok (.added r)
      | .error .valueError => warnSkip item
      | .error .typeError => warnSkip item
      | .error e => .error e

/-- The point loop, threading `data_to_insert` (in order) and the count
of warned skips. -/
def buildBatchFrom (box : Option String) (sid : JVal) (d : Details)
    (acc : List Row × ℕ) : List JVal → Except PyErr (List Row × ℕ)
  | [] => .ok acc
  | item :: items =>
    match parsePoint box sid d item with
    | .error e => .error e
    | .ok (.added r) => buildBatchFrom box sid d (acc.1 ++ [r], acc.2) items
    | .ok (.skipped w) =>
      buildBatchFrom box sid d (acc.1, if w then acc.2 + 1 else acc.2) items

/-- `data_to_insert` (and the warned-skip count) for one sensor's
returned points. -/
def buildBatch (box : Option String) (sid : JVal) (d : Details)
    (items : List JVal) : Except PyErr (List Row × ℕ) :=
  buildBatchFrom box sid d ([], 0) items

/-! ## The external world and the two phases of the script -/

/-- Outcomes of every external effect of one run: the script is a pure
function of this oracle.  Fetch outcomes bundle
`requests.get` + `raise_for_status()` + `.json()`; insert outcomes
bundle `executemany` + `commit` for one sensor's batch. -/
structure World where
  /-- `SENSEBOX_ID = os.getenv('SENSEBOX_ID')` (line 18): no default. -/
  box : Option String
  /-- Whether `psycopg2.connect`/`cursor()` (lines 27-28) raises
  `psycopg2.Error`. -/
  connectInsertErr : Bool
  /-- Outcome of the metadata fetch (lines 32-34). -/
  metaFetch : Except PyErr JVal
  /-- Outcome of the per-sensor series fetch (lines 59-61), keyed by
  sensor id. -/
  sensorFetch : JVal → Except PyErr JVal
  /-- Outcome of `executemany` + `commit` (lines 91-92) for a sensor's
  batch: `none` on success, otherwise the raised error.  A failed
  statement leaves the transaction's pending rows uncommitted, so the
  sensor contributes nothing to the table. -/
  insertOutcome : JVal → Option PyErr
  /-- Outcome of the read connection + `read_sql_query`
  (lines 126-135). -/
  readOutcome : Except PyErr Unit

/-- Loop body for one registry entry (`app.py` lines 51-102).  The two
trailing handlers (lines 99-102) catch `RequestException` and every
other `Exception`, print a warning and continue, so any error raised
while fetching, normalizing or inserting this sensor's series leaves
the table as it was and moves on. -/
def processSensor (w : World) (db : Db) (entry : JVal × Details) : Db :=
  match w.sensorFetch entry.1 with
  | .error _ => db
  | .ok data =>
    if pyTruthy data then
      match pyIter data with
      | .error _ => db
      | .ok items =>
        match buildBatch w.box entry.1 entry.2 items with
        | .error _ => db
        | .ok (rows, _) =>
          if rows.isEmpty then db
          else
            match w.insertOutcome entry.1 with
            | some _ => db
            | none => insertMany db rows
    else db

/-- The `for sensor_id, details in sensor_details.items()` loop
(lines 51-102), in registry order. -/
def processSensors (w : World) : Registry → Db → Db
  | [], db => db
  | e :: rest, db => processSensors w rest (processSensor w db e)

/-- The whole ingestion phase (`app.py` lines 24-119) as a function of
the oracle and the initial table state: `.error c` means the process
terminated with exit code `c` (every fatal path calls `sys.exit(1)`, or
is an exception reaching one of the three outer handlers at
lines 106-114, all of which exit 1); `.ok db` means the phase completed
with final table `db`.  `sys.exit` raises `SystemExit`, which derives
from `BaseException` and therefore passes the outer `except Exception`
untouched. -/
def runIngestion (w : World) (db : Db) : Except ℕ Db :=
  match w.connectInsertErr with
  | true => .error 1
  | false =>
    match w.metaFetch with
    | .error _ => .error 1
    | .ok metadata =>
      -- line 36: `if not metadata or 'sensors' not in metadata: sys.exit(1)`
      match pyTruthy metadata with
      | false => .error 1
      | true =>
        match pyContains metadata "sensors" with
        | .error _ => .error 1
        | .ok false => .error 1
        | .ok true =>
          match pySubscript metadata "sensors" with
          | .error _ => .error 1
          | .ok sensorsVal =>
            match pyIter sensorsVal with
            | .error _ => .error 1
            | .ok ss =>
              match buildRegistry ss with
              | .error _ => .error 1
              | .ok reg => .ok (processSensors w reg db)

/-! ## Presentation phase: read query and dashboard -/

/-- Sort key embedding for a stored value, giving the order postgres
uses on the `ORDER BY` columns: committed text/timestamp columns hold
strings (compared lexicographically — API timestamps are uniform
ISO-8601 UTC strings, where this equals temporal order) or SQL `NULL`,
which sorts last in ascending order.  The remaining constructors cannot
reach a committed text column and only need a consistent place. -/
def jvalKey : JVal → ℕ ×ₗ String ×ₗ ℚ
  | .jbool b => toLex (1, toLex ("", if b then (1 : ℚ) else 0))
  | .jnum q => toLex (2, toLex ("", q))
  | .jstr s => toLex (3, toLex (s, 0))
  | .jarr _ => toLex (4, toLex ("", 0))
  | .jobj _ => toLex (5, toLex ("", 0))
  | .jnull => toLex (6, toLex ("", 0))

/-- The `ORDER BY sensor_type, sensor_id, timestamp` key
(`app.py` line 133). -/
def rowOrdKey (r : Row) :
    (ℕ ×ₗ String ×ₗ ℚ) ×ₗ (ℕ ×ₗ String ×ₗ ℚ) ×ₗ (ℕ ×ₗ String ×ₗ ℚ) :=
  toLex (jvalKey r.sensor_type, toLex (jvalKey r.sensor_id, jvalKey r.timestamp))

/-- Row comparison of the dashboard query's `ORDER BY`. -/
def rowLe (a b : Row) : Prop := rowOrdKey a ≤ rowOrdKey b

instance : DecidableRel rowLe :=
  fun a b => inferInstanceAs (Decidable (rowOrdKey a ≤ rowOrdKey b))

instance : IsTotal Row rowLe :=
  ⟨fun a b => le_total (rowOrdKey a) (rowOrdKey b)⟩

instance : IsTrans Row rowLe :=
  ⟨fun _ _ _ h1 h2 => le_trans h1 h2⟩

/-- The dashboard `SELECT` (`app.py` lines 129-135): all rows of the
configured box, ordered by `(sensor_type, sensor_id, timestamp)`. -/
def dashboardQuery (db : Db) (box : Option String) : List Row :=
  List.insertionSort rowLe (db.filter (fun r => decide (r.box_id = box)))

/-- Lines 123-147: on any error from the read connection or the query,
both handlers only log and keep `df_all_sensors` empty. -/
def readPhase (w : World) (db : Db) : List Row :=
  match w.readOutcome with
  | .error _ => []
  | .ok _ => dashboardQuery db w.box

/-- The cleaning step (lines 156-158): `to_numeric(errors='coerce')` on
a `DOUBLE PRECISION` column turns exactly the SQL `NULL`s into `NaN`,
and `dropna(subset=['measurement', 'timestamp'])` then drops rows with
a null measurement or a null timestamp. -/
def cleanRows (rows : List Row) : List Row :=
  rows.filter (fun r => r.measurement.isSome && decide (r.timestamp ≠ .jnull))

/-- `pandas.unique`: distinct values in order of first appearance
(line 164). -/
def uniqueFirst (xs : List JVal) : List JVal :=
  xs.foldl (fun acc x => if x ∈ acc then acc else acc ++ [x]) []

/-- One rendered line-chart panel (lines 176-184): the sensor it plots,
its title and its y-axis label. -/
structure Graph where
  sid : JVal
  title : String
  yaxisLabel : String
  deriving DecidableEq, Repr

/-- Lines 167-186 for one `sensor_id`: restrict the cleaned frame to the
sensor, take type and unit from its first row, and build the panel; an
empty restriction produces no panel (line 169). -/
def mkGraph (cl : List Row) (sid : JVal) : Option Graph :=
  let sub := cl.filter (fun r => decide (r.sensor_id = sid))
  match sub.head? with
  | none => none
  | some r0 =>
    some { sid := sid
           title := "Type: " ++ pyStr r0.sensor_type ++ " (ID: " ++ pyStr sid ++ ")"
           yaxisLabel :=
             if pyTruthy r0.unit then
               pyStr r0.sensor_type ++ " (" ++ pyStr r0.unit ++ ")"
             else pyStr r0.sensor_type }

/-- Lines 153-186: no graphs at all when the frame is empty; otherwise
clean, then one panel per distinct sensor id of the cleaned frame. -/
def buildGraphs (rows : List Row) : List Graph :=
  if rows.isEmpty then []
  else
    let cl := cleanRows rows
    (uniqueFirst (cl.map (fun r => r.sensor_id))).filterMap (mkGraph cl)

/-- The children of the layout's graph container (line 195): the graphs
when any were generated, else the placeholder paragraph
`"No data available to display graphs."`. -/
inductive Body where
  | charts (gs : List Graph)
  | placeholder
  deriving DecidableEq, Repr

/-- Line 195: `graphs if graphs else html.P(...)`. -/
def renderBody (rows : List Row) : Body :=
  let gs := buildGraphs rows
  if gs.isEmpty then .placeholder else .charts gs

/-- Observable end state of one run of the script. -/
inductive RunOutcome where
  | exited (code : ℕ)
  | serving (b : Body)
  deriving DecidableEq, Repr

/-- The whole script: ingestion phase, then (unless it exited) the read
phase and the dashboard layout built from the fetched frame. -/
def runProcess (w : World) (db : Db) : RunOutcome :=
  match runIngestion w db with
  | .error c => .exited c
  | .ok db2 => .serving (renderBody (readPhase w db2))

/-! ## Generic helper instances and lemmas -/

/-- Decidable equality for `Except` results (not provided by the
library for this combination). -/
def exceptDecEq {ε α : Type _} [DecidableEq ε] [DecidableEq α] :
    (x y : Except ε α) → Decidable (x = y)
  | .error e, .error f =>
    match decEq e f with
    | isTrue h => isTrue (h ▸ rfl)
    | isFalse h => isFalse (fun hh => h (Except.error.inj hh))
  | .ok a, .ok b =>
    match decEq a b with
    | isTrue h => isTrue (h ▸ rfl)
    | isFalse h => isFalse (fun hh => h (Except.ok.inj hh))
  | .error _, .ok _ => isFalse (fun h => by cases h)
  | .ok _, .error _ => isFalse (fun h => by cases h)

instance {ε α : Type _} [DecidableEq ε] [DecidableEq α] :
    DecidableEq (Except ε α) := exceptDecEq

/-- A row whose conflict key is already present is discarded. -/
theorem insertRow_of_key_mem {db : Db} {r : Row}
    (h : rowKey r ∈ db.map rowKey) : insertRow db r = db := by
  unfold insertRow
  rw [if_pos]
  rw [List.any_eq_true]
  obtain ⟨x, hx, he⟩ := List.mem_map.mp h
  exact ⟨x, hx, decide_eq_true he⟩

/-- A row with a fresh conflict key is appended. -/
theorem insertRow_of_key_not_mem {db : Db} {r : Row}
    (h : rowKey r ∉ db.map rowKey) : insertRow db r = db ++ [r] := by
  unfold insertRow
  rw [if_neg]
  rw [List.any_eq_true]
  rintro ⟨x, hx, he⟩
  exact h (List.mem_map.mpr ⟨x, hx, of_decide_eq_true he⟩)

/-- After inserting a row its key is present. -/
theorem key_mem_insertRow (db : Db) (r : Row) :
    rowKey r ∈ (insertRow db r).map rowKey := by
  unfold insertRow
  split
  · next h =>
    obtain ⟨x, hx, he⟩ := List.any_eq_true.mp h
    exact List.mem_map.mpr ⟨x, hx, of_decide_eq_true he⟩
  · simp

/-- Inserting preserves the presence of any key. -/
theorem key_mem_insertRow_of_mem {db : Db} {k : JVal × Option String × JVal}
    (x : Row) (h : k ∈ db.map rowKey) : k ∈ (insertRow db x).map rowKey := by
  unfold insertRow
  split
  · exact h
  · rw [List.map_append]
    exact List.mem_append_left _ h

/-- One insert only ever appends. -/
theorem insertRow_append (db : Db) (r : Row) :
    ∃ ext, insertRow db r = db ++ ext := by
  unfold insertRow
  split
  · exact ⟨[], by simp⟩
  · exact ⟨[r], rfl⟩

/-- A batch insert only ever appends. -/
theorem insertMany_append (rs : List Row) :
    ∀ db : Db, ∃ ext, insertMany db rs = db ++ ext := by
  induction rs with
  | nil => exact fun db => ⟨[], by simp [insertMany]⟩
  | cons r rest ih =>
    intro db
    obtain ⟨e1, h1⟩ := insertRow_append db r
    obtain ⟨e2, h2⟩ := ih (insertRow db r)
    exact ⟨e1 ++ e2, by simp [insertMany] at h2 ⊢; rw [h2, h1, List.append_assoc]⟩

/-- A batch insert where every key is already present is a no-op. -/
theorem insertMany_of_keys_mem (rs : List Row) :
    ∀ db : Db, (∀ r ∈ rs, rowKey r ∈ db.map rowKey) → insertMany db rs = db := by
  induction rs with
  | nil => intro db _; rfl
  | cons r rest ih =>
    intro db h
    have h1 : insertRow db r = db := insertRow_of_key_mem (h r (by simp))
    simp only [insertMany, List.foldl_cons]
    rw [h1]
    exact ih db (fun x hx => h x (by simp [hx]))

/-- After a batch insert every key of the batch is present. -/
theorem keys_mem_insertMany (rs : List Row) :
    ∀ db : Db, ∀ r ∈ rs, rowKey r ∈ (insertMany db rs).map rowKey := by
  induction rs with
  | nil => intro db r hr; cases hr
  | cons x rest ih =>
    intro db r hr
    simp only [insertMany, List.foldl_cons]
    rcases List.mem_cons.mp hr with h | h
    · subst h
      obtain ⟨ext, hext⟩ := insertMany_append rest (insertRow db r)
      show rowKey r ∈ (insertMany (insertRow db r) rest).map rowKey
      rw [hext, List.map_append]
      exact List.mem_append_left _ (key_mem_insertRow db r)
    · exact ih (insertRow db x) r h

/-- The sensor loop body only ever appends to the table. -/
theorem processSensor_append (w : World) (db : Db) (e : JVal × Details) :
    ∃ ext, processSensor w db e = db ++ ext := by
  unfold processSensor
  split
  · exact ⟨[], by simp⟩
  · split
    · split
      · exact ⟨[], by simp⟩
      · split
        · exact ⟨[], by simp⟩
        · split
          · exact ⟨[], by simp⟩
          · split
            · exact ⟨[], by simp⟩
            · exact insertMany_append _ db
    · exact ⟨[], by simp⟩

/-- The whole sensor loop only ever appends to the table: rows committed
for earlier sensors are never rolled back. -/
theorem processSensors_append (w : World) (reg : Registry) :
    ∀ db : Db, ∃ ext, processSensors w reg db = db ++ ext := by
  induction reg with
  | nil => exact fun db => ⟨[], by simp [processSensors]⟩
  | cons e rest ih =>
    intro db
    obtain ⟨e1, h1⟩ := processSensor_append w db e
    obtain ⟨e2, h2⟩ := ih (processSensor w db e)
    refine ⟨e1 ++ e2, ?_⟩
    show processSensors w rest (processSensor w db e) = db ++ (e1 ++ e2)
    rw [h2, h1, List.append_assoc]

/-- Keys present in the table stay present through the sensor loop. -/
theorem key_mem_processSensors {w : World} {reg : Registry} {db : Db}
    {k : JVal × Option String × JVal} (h : k ∈ db.map rowKey) :
    k ∈ (processSensors w reg db).map rowKey := by
  obtain ⟨ext, hext⟩ := processSensors_append w reg db
  rw [hext, List.map_append]
  exact List.mem_append_left _ h

/-- The loop body for one sensor either ignores the table (every
non-insert path) or performs exactly one batch insert; which of the two
happens, and with which batch, does not depend on the table state. -/
theorem processSensor_shape (w : World) (e : JVal × Details) :
    (∀ db : Db, processSensor w db e = db) ∨
    (∃ rows, rows ≠ [] ∧ ∀ db : Db, processSensor w db e = insertMany db rows) := by
  unfold processSensor
  cases hf : w.sensorFetch e.1 with
  | error err => exact Or.inl (fun db => rfl)
  | ok data =>
    cases ht : pyTruthy data with
    | false => exact Or.inl (fun db => by simp [ht])
    | true =>
      cases hi : pyIter data with
      | error err => exact Or.inl (fun db => by simp [ht, hi])
      | ok items =>
        cases hb : buildBatch w.box e.1 e.2 items with
        | error err => exact Or.inl (fun db => by simp [ht, hi, hb])
        | ok p =>
          obtain ⟨rows, wc⟩ := p
          cases hre : rows.isEmpty with
          | true => exact Or.inl (fun db => by simp [ht, hi, hb, hre])
          | false =>
            cases ho : w.insertOutcome e.1 with
            | some err => exact Or.inl (fun db => by simp [ht, hi, hb, hre, ho])
            | none =>
              refine Or.inr ⟨rows, by simpa using hre, fun db => ?_⟩
              simp [ht, hi, hb, hre, ho]

/-- Re-running the sensor loop on its own output changes nothing: every
batch the second pass attempts has all its keys present already, so all
of its inserts are conflict-discarded. -/
theorem processSensors_idem (w : World) (reg : Registry) :
    ∀ db : Db, processSensors w reg (processSensors w reg db) = processSensors w reg db := by
  induction reg with
  | nil => intro db; rfl
  | cons e rest ih =>
    intro db
    show processSensors w rest (processSensor w (processSensors w rest (processSensor w db e)) e) =
      processSensors w rest (processSensor w db e)
    rcases processSensor_shape w e with hid | ⟨rows, -, hins⟩
    · rw [hid, hid]
      exact ih db
    · rw [hins, hins]
      have hkeys : ∀ r ∈ rows,
          rowKey r ∈ (processSensors w rest (insertMany db rows)).map rowKey :=
        fun r hr => key_mem_processSensors (keys_mem_insertMany rows db r hr)
      rw [insertMany_of_keys_mem rows _ hkeys]
      exact ih (insertMany db rows)

/-- A completed ingestion run determines a registry such that the final
table is the sensor loop applied to the initial one, and any re-run from
any table state completes with the loop applied to that state (all
control decisions before the loop depend only on the oracle). -/
theorem runIngestion_ok_inv {w : World} {db db1 : Db}
    (h : runIngestion w db = .ok db1) :
    ∃ reg, db1 = processSensors w reg db ∧
      ∀ db2, runIngestion w db2 = .ok (processSensors w reg db2) := by
  unfold runIngestion at h
  split at h
  · cases h
  · rename_i hconn
    split at h
    · cases h
    · rename_i metadata hmeta
      split at h
      · cases h
      · rename_i htruthy
        split at h
        · cases h
        · cases h
        · rename_i hcont
          split at h
          · cases h
          · rename_i sensorsVal hsub
            split at h
            · cases h
            · rename_i ss hiter
              split at h
              · cases h
              · rename_i reg hreg
                refine ⟨reg, (Except.ok.inj h).symm, fun db2 => ?_⟩
                unfold runIngestion
                simp only [hconn, hmeta, htruthy, hcont, hsub, hiter, hreg]

/-! ## Claim C1 -/

/-- World for C1: the metadata endpoint is reachable and returns the
JSON object `{"sensors": []}`. -/
def worldEmptySensors : World :=
  { box := some "box1"
    connectInsertErr := false
    metaFetch := .ok (.jobj [("sensors", .jarr [])])
    sensorFetch := fun _ => .error .requestError
    insertOutcome := fun _ => none
    readOutcome := .ok () }

/-- C1 counterexample: with reachable metadata whose `sensors` field is
the empty list, the ingestion phase does NOT exit — the line-36 check
only tests key presence, so the run completes normally (`.ok`) with the
table untouched (hence also no database write). -/
theorem C1_counterexample :
    runIngestion worldEmptySensors [] = .ok [] ∧
    runIngestion worldEmptySensors [] ≠ .error 1 := by decide

/-- C1 (amended): for every run in which the metadata endpoint is
reachable and returns a truthy JSON value whose `sensors` member is the
empty list, the process does not exit; ingestion completes with the
table exactly as it was, so in particular no database write is
performed (the per-sensor loop body never runs). -/
theorem C1_empty_sensors_no_exit (w : World) (db : Db) (metadata : JVal)
    (hconn : w.connectInsertErr = false)
    (hmeta : w.metaFetch = .ok metadata)
    (htruthy : pyTruthy metadata = true)
    (hcont : pyContains metadata "sensors" = .ok true)
    (hsub : pySubscript metadata "sensors" = .ok (.jarr [])) :
    runIngestion w db = .ok db := by
  unfold runIngestion
  simp only [hconn, hmeta, htruthy, hcont, hsub]
  rfl

/-- C1 witness: the amended statement applied to a concrete world. -/
theorem C1_empty_sensors_witness :
    pyTruthy (.jobj [("sensors", .jarr [])]) = true ∧
    pyContains (.jobj [("sensors", .jarr [])]) "sensors" = .ok true ∧
    pySubscript (.jobj [("sensors", .jarr [])]) "sensors" = .ok (.jarr []) ∧
    runIngestion worldEmptySensors [] = .ok [] :=
  ⟨by decide, by decide, by decide,
    C1_empty_sensors_no_exit worldEmptySensors [] (.jobj [("sensors", .jarr [])])
      rfl rfl (by decide) (by decide) (by decide)⟩

/-! ## Claim C2 -/

/-- World for C2: trivially successful ingestion, then a
`psycopg2.Error` while reading back for the dashboard. -/
def worldReadDbError : World :=
  { box := some "box1"
    connectInsertErr := false
    metaFetch := .ok (.jobj [("sensors", .jarr [])])
    sensorFetch := fun _ => .error .requestError
    insertOutcome := fun _ => none
    readOutcome := .error .dbError }

/-- World for C2's witness: `psycopg2.connect` raises during the
ingestion phase. -/
def worldConnectError : World :=
  { box := none
    connectInsertErr := true
    metaFetch := .error .dbError
    sensorFetch := fun _ => .error .requestError
    insertOutcome := fun _ => none
    readOutcome := .ok () }

/-- C2 counterexample: a database error during the initial dashboard
read does NOT terminate the process — the handlers at lines 138-143
only log and keep the frame empty, and the script goes on to serve the
placeholder layout instead of exiting with code 1. -/
theorem C2_counterexample :
    runProcess worldReadDbError [] = .serving .placeholder ∧
    runProcess worldReadDbError [] ≠ .exited 1 := by decide

/-- C2 (amended): database errors are fatal only outside the per-sensor
loop of the ingestion phase.  (1) A `psycopg2.Error` from the initial
connect is logged and exits with code 1.  (2) Once the registry is
built, the run always completes — for every assignment of per-sensor
fetch and insert/commit outcomes, including database errors, which the
line-101 `except Exception` handler survives.  (3) After a completed
ingestion the process always reaches serving, whatever the read
outcome.  (4) A database error during the initial dashboard read leaves
the dashboard frame empty rather than terminating. -/
theorem C2_db_error_tiers :
    (∀ (w : World) (db : Db), w.connectInsertErr = true →
      runIngestion w db = .error 1)
    ∧ (∀ (w : World) (db : Db) (metadata sensorsVal : JVal) (ss : List JVal)
        (reg : Registry),
        w.connectInsertErr = false → w.metaFetch = .ok metadata →
        pyTruthy metadata = true → pyContains metadata "sensors" = .ok true →
        pySubscript metadata "sensors" = .ok sensorsVal →
        pyIter sensorsVal = .ok ss → buildRegistry ss = .ok reg →
        runIngestion w db = .ok (processSensors w reg db))
    ∧ (∀ (w : World) (db db2 : Db), runIngestion w db = .ok db2 →
        runProcess w db = .serving (renderBody (readPhase w db2)))
    ∧ (∀ (w : World) (db : Db) (e : PyErr), w.readOutcome = .error e →
        readPhase w db = []) := by
  refine ⟨?_, ?_, ?_, ?_⟩
  · intro w db hc
    unfold runIngestion
    rw [hc]
  · intro w db metadata sensorsVal ss reg hc hm ht hk hs hi hr
    unfold runIngestion
    simp only [hc, hm, ht, hk, hs, hi, hr]
  · intro w db db2 h
    unfold runProcess
    rw [h]
  · intro w db e h
    unfold readPhase
    rw [h]

/-- C2 witness: the amended statement applied to concrete worlds — a
connect error exits with code 1; a read error yields the empty frame. -/
theorem C2_db_error_tiers_witness :
    runIngestion worldConnectError [] = .error 1 ∧
    readPhase worldReadDbError [] = [] :=
  ⟨C2_db_error_tiers.1 worldConnectError [] rfl,
    C2_db_error_tiers.2.2.2 worldReadDbError [] .dbError rfl⟩

/-! ## Claim C3 -/

/-- World for C3/C4 witnesses: one registered sensor whose series
contains a parsable value, a null value, an unparsable value and a
point with no timestamp. -/
def worldOneSensor : World :=
  { box := some "b"
    connectInsertErr := false
    metaFetch := .ok (.jobj [("sensors", .jarr [.jobj [("_id", .jstr "s1")]])])
    sensorFetch := fun _ => .ok (.jarr
      [ .jobj [("createdAt", .jstr "t1"), ("value", .jstr "1.5")],
        .jobj [("createdAt", .jstr "t2"), ("value", .jnull)],
        .jobj [("createdAt", .jstr "t3"), ("value", .jstr "abc")],
        .jobj [("value", .jnum 7)] ])
    insertOutcome := fun _ => none
    readOutcome := .ok () }

/-- The table produced by one ingestion run of `worldOneSensor` from an
empty table. -/
def dbOneSensor : Db :=
  [ ⟨.jstr "t1", some "b", .jstr "s1", some (Rat.divInt 3 2), .jstr "", .jstr "unknown", .jnull⟩,
    ⟨.jstr "t2", some "b", .jstr "s1", none, .jstr "", .jstr "unknown", .jnull⟩ ]

/-- C3: re-running the ingestion phase with the identical oracle
(identical upstream metadata and measurement data) on the table the
first run produced reproduces that table exactly — in particular the
row count is unchanged.  Every insert goes through `insertRow`, whose
conflict target is `rowKey = (timestamp, box_id, sensor_id)` with
do-nothing action: a row whose key is present is discarded unchanged
(second conjunct), never merged or overwritten. -/
theorem C3_reingest_idempotent :
    (∀ (w : World) (db db1 : Db),
      runIngestion w db = .ok db1 → runIngestion w db1 = .ok db1)
    ∧ (∀ (db : Db) (r : Row), rowKey r ∈ db.map rowKey → insertRow db r = db) := by
  constructor
  · intro w db db1 h
    obtain ⟨reg, hdb1, hrun⟩ := runIngestion_ok_inv h
    subst hdb1
    rw [hrun, processSensors_idem]
  · exact fun db r h => insertRow_of_key_mem h

/-- C3 witness: a concrete first run inserts two rows; the re-run with
the identical oracle returns the same two-row table, and re-inserting
one of its rows is discarded by the conflict action. -/
theorem C3_reingest_idempotent_witness :
    runIngestion worldOneSensor [] = .ok dbOneSensor ∧
    runIngestion worldOneSensor dbOneSensor = .ok dbOneSensor ∧
    insertRow dbOneSensor
      ⟨.jstr "t1", some "b", .jstr "s1", some (Rat.divInt 3 2), .jstr "", .jstr "unknown", .jnull⟩ =
      dbOneSensor := by
  have h1 : runIngestion worldOneSensor [] = .ok dbOneSensor := by decide
  exact ⟨h1, C3_reingest_idempotent.1 worldOneSensor [] dbOneSensor h1,
    C3_reingest_idempotent.2 dbOneSensor _ (by decide)⟩

/-! ## Claim C4 -/

/-- If one sensor's step is a batch insert and that sensor is in the
registry, then after the whole loop every key of its batch is in the
table. -/
theorem key_mem_processSensors_of_insert {w : World} {e : JVal × Details}
    {rows : List Row} (hstep : ∀ db, processSensor w db e = insertMany db rows) :
    ∀ reg : Registry, e ∈ reg → ∀ (db : Db), ∀ r ∈ rows,
      rowKey r ∈ (processSensors w reg db).map rowKey := by
  intro reg
  induction reg with
  | nil => intro h; cases h
  | cons e2 rest ih =>
    intro hmem db r hr
    show rowKey r ∈ (processSensors w rest (processSensor w db e2)).map rowKey
    rcases List.mem_cons.mp hmem with he | he
    · cases he
      rw [hstep db]
      exact key_mem_processSensors (keys_mem_insertMany rows db r hr)
    · exact ih he (processSensor w db e2) r hr

/-- C4: per-sensor failures are isolated and sensor-granular commits
are durable.  (1) The loop only ever appends: rows committed for
sensors processed earlier are never rolled back by a later failure.
(2) A sensor whose series fetch raises is skipped exactly — the loop
over the remaining registry continues on the unchanged table.  (3) A
sensor anywhere in the registry whose fetch, normalization and insert
all succeed with a non-empty batch has every row key of its batch
present in the final table. -/
theorem C4_sensor_isolation :
    (∀ (w : World) (reg : Registry) (db : Db),
      ∃ ext, processSensors w reg db = db ++ ext)
    ∧ (∀ (w : World) (e : JVal × Details) (rest : Registry) (db : Db) (err : PyErr),
        w.sensorFetch e.1 = .error err →
        processSensors w (e :: rest) db = processSensors w rest db)
    ∧ (∀ (w : World) (reg : Registry) (db : Db) (e : JVal × Details)
        (data : JVal) (items : List JVal) (rows : List Row) (wc : ℕ),
        e ∈ reg → w.sensorFetch e.1 = .ok data → pyTruthy data = true →
        pyIter data = .ok items → buildBatch w.box e.1 e.2 items = .ok (rows, wc) →
        rows ≠ [] → w.insertOutcome e.1 = none →
        ∀ r ∈ rows, rowKey r ∈ (processSensors w reg db).map rowKey) := by
  refine ⟨fun w reg db => processSensors_append w reg db, ?_, ?_⟩
  · intro w e rest db err hf
    show processSensors w rest (processSensor w db e) = processSensors w rest db
    have hskip : processSensor w db e = db := by
      unfold processSensor
      rw [hf]
    rw [hskip]
  · intro w reg db e data items rows wc hmem hf ht hi hb hne ho
    have hre : rows.isEmpty = false := by
      cases rows with
      | nil => exact absurd rfl hne
      | cons a l => rfl
    have hstep : ∀ db2, processSensor w db2 e = insertMany db2 rows := by
      intro db2
      unfold processSensor
      simp only [hf, ht, hi, hb, hre, ho]
      simp
    exact fun r hr => key_mem_processSensors_of_insert hstep reg hmem db r hr

/-- World for C4's witness: sensor `sA` fails its series fetch, `sB`
succeeds with one parsable point. -/
def worldTwoSensors : World :=
  { box := some "b"
    connectInsertErr := false
    metaFetch := .ok (.jobj [("sensors",
      .jarr [.jobj [("_id", .jstr "sA")], .jobj [("_id", .jstr "sB")]])])
    sensorFetch := fun sid =>
      if sid = .jstr "sA" then .error .requestError
      else .ok (.jarr [.jobj [("createdAt", .jstr "t1"), ("value", .jnum 5)]])
    insertOutcome := fun _ => none
    readOutcome := .ok () }

/-- The registry the metadata of `worldTwoSensors` produces. -/
def regTwoSensors : Registry :=
  [ (.jstr "sA", ⟨.jstr "unknown", .jstr "", .jnull⟩),
    (.jstr "sB", ⟨.jstr "unknown", .jstr "", .jnull⟩) ]

/-- The row sensor `sB` contributes in `worldTwoSensors`. -/
def rowB : Row :=
  ⟨.jstr "t1", some "b", .jstr "sB", some 5, .jstr "", .jstr "unknown", .jnull⟩

/-- C4 witness: the isolation statement applied to the concrete
two-sensor world — `sA`'s failing step is skipped, `sB`'s key lands in
the final table, and the loop only appended to the initial table. -/
theorem C4_sensor_isolation_witness :
    processSensors worldTwoSensors regTwoSensors [] =
      processSensors worldTwoSensors [(.jstr "sB", ⟨.jstr "unknown", .jstr "", .jnull⟩)] [] ∧
    rowKey rowB ∈ (processSensors worldTwoSensors regTwoSensors []).map rowKey ∧
    ∃ ext, processSensors worldTwoSensors regTwoSensors [] = [] ++ ext := by
  refine ⟨?_, ?_, C4_sensor_isolation.1 worldTwoSensors regTwoSensors []⟩
  · exact C4_sensor_isolation.2.1 worldTwoSensors
      (.jstr "sA", ⟨.jstr "unknown", .jstr "", .jnull⟩)
      [(.jstr "sB", ⟨.jstr "unknown", .jstr "", .jnull⟩)] [] .requestError (by decide)
  · exact C4_sensor_isolation.2.2 worldTwoSensors regTwoSensors []
      (.jstr "sB", ⟨.jstr "unknown", .jstr "", .jnull⟩)
      (.jarr [.jobj [("createdAt", .jstr "t1"), ("value", .jnum 5)]])
      [.jobj [("createdAt", .jstr "t1"), ("value", .jnum 5)]]
      [rowB] 0 (by decide) (by decide) (by decide) (by decide) (by decide)
      (by decide) (by decide) rowB (by decide)

/-! ## Claim C5 -/

/-- A dict containing a key can be subscripted with it. -/
theorem jobj_contains_subscript {fs : List (String × JVal)} {key : String}
    (h : pyContains (.jobj fs) key = .ok true) :
    ∃ v, pySubscript (.jobj fs) key = .ok v := by
  have hany : fs.any (fun p => p.1 == key) = true := Except.ok.inj h
  obtain ⟨x, hx, hpx⟩ := List.any_eq_true.mp hany
  have hsome : (fs.find? (fun p => p.1 == key)).isSome :=
    List.find?_isSome.mpr ⟨x, hx, hpx⟩
  obtain ⟨p, hp⟩ := Option.isSome_iff_exists.mp hsome
  refine ⟨p.2, ?_⟩
  simp only [pySubscript, hp]

/-- A dict that can be subscripted with a key contains it. -/
theorem jobj_subscript_contains {fs : List (String × JVal)} {key : String}
    {v : JVal} (h : pySubscript (.jobj fs) key = .ok v) :
    pyContains (.jobj fs) key = .ok true := by
  simp only [pySubscript] at h
  cases hf : fs.find? (fun p => p.1 == key) with
  | none => simp only [hf] at h; cases h
  | some p =>
    have hp1 := List.find?_some hf
    have hmem := List.mem_of_find?_eq_some hf
    exact congrArg Except.ok (List.any_eq_true.mpr ⟨p, hmem, hp1⟩)

/-- The batch a sensor's point loop accumulates consists exactly of the
successfully parsed points, in order. -/
theorem buildBatchFrom_ok_rows (box : Option String) (sid : JVal) (d : Details) :
    ∀ (items : List JVal) (acc : List Row × ℕ) (rows : List Row) (wc : ℕ),
      buildBatchFrom box sid d acc items = .ok (rows, wc) →
      rows = acc.1 ++ items.filterMap (fun i =>
        match parsePoint box sid d i with
        | .ok (.added r) => some r
        | _ => none) := by
  intro items
  induction items with
  | nil =>
    intro acc rows wc h
    have : acc = (rows, wc) := Except.ok.inj h
    simp [this]
  | cons i items ih =>
    intro acc rows wc h
    unfold buildBatchFrom at h
    cases hp : parsePoint box sid d i with
    | error e => rw [hp] at h; cases h
    | ok oc =>
      cases oc with
      | added r =>
        rw [hp] at h
        have := ih (acc.1 ++ [r], acc.2) rows wc h
        simp only [List.filterMap_cons, hp] at *
        rw [this]
        simp [List.append_assoc]
      | skipped wflag =>
        rw [hp] at h
        have := ih (acc.1, if wflag then acc.2 + 1 else acc.2) rows wc h
        simp only [List.filterMap_cons, hp] at *
        rw [this]

/-- C5 counterexample: a point lacking the timestamp field is skipped
*silently* — the outcome records that line 82's warning was not
printed (the line-68 membership check has no logging `else` branch),
contradicting the claim that every such rejection logs a warning. -/
theorem C5_counterexample :
    parsePoint (some "b") (.jstr "s1") ⟨.jstr "T", .jstr "u", .jnull⟩
      (.jobj [("value", .jnum 1)]) = .ok (.skipped false) := by decide

/-- C5 (amended): every data point lacking a timestamp field or a value
field is skipped silently (no warning); every well-formed point whose
non-null value fails float conversion (`ValueError`/`TypeError`) is
skipped with the line-82 warning; and the batch a sensor inserts — and
hence the reported `len(data_to_insert)` — consists exactly of the
successfully parsed points, so every skipped point is excluded from
both the table and the count. -/
theorem C5_invalid_points_rejected :
    (∀ (box : Option String) (sid : JVal) (d : Details) (item : JVal),
      pyContains item "createdAt" = .ok false →
      parsePoint box sid d item = .ok (.skipped false))
    ∧ (∀ (box : Option String) (sid : JVal) (d : Details) (item : JVal),
        pyContains item "createdAt" = .ok true →
        pyContains item "value" = .ok false →
        parsePoint box sid d item = .ok (.skipped false))
    ∧ (∀ (box : Option String) (sid : JVal) (d : Details)
        (fs : List (String × JVal)) (v : JVal) (e : PyErr),
        pySubscript (.jobj fs) "value" = .ok v → v ≠ .jnull →
        pyContains (.jobj fs) "createdAt" = .ok true →
        pyFloat v = .error e → (e = .valueError ∨ e = .typeError) →
        parsePoint box sid d (.jobj fs) = .ok (.skipped true))
    ∧ (∀ (box : Option String) (sid : JVal) (d : Details) (items : List JVal)
        (rows : List Row) (wc : ℕ),
        buildBatch box sid d items = .ok (rows, wc) →
        rows = items.filterMap (fun i =>
          match parsePoint box sid d i with
          | .ok (.added r) => some r
          | _ => none)) := by
  refine ⟨?_, ?_, ?_, ?_⟩
  · intro box sid d item h
    unfold parsePoint
    rw [h]
  · intro box sid d item h1 h2
    unfold parsePoint
    simp only [h1, h2]
  · intro box sid d fs v e hv hvn hc hf he
    have hcv : pyContains (.jobj fs) "value" = .ok true := jobj_subscript_contains hv
    obtain ⟨ts, hts⟩ := jobj_contains_subscript hc
    have hatt : parseAttempt box sid d (.jobj fs) = .error e := by
      unfold parseAttempt
      simp only [hv, if_neg hvn, hf]
    have hwarn : warnSkip (.jobj fs) = .ok (.skipped true) := by
      unfold warnSkip
      simp only [hv, hts]
    unfold parsePoint
    rcases he with rfl | rfl <;> simp only [hc, hcv, hatt, hwarn]
  · intro box sid d items rows wc h
    simpa using buildBatchFrom_ok_rows box sid d items ([], 0) rows wc h

/-- C5 witness: the amended statement applied to concrete points — a
point with no timestamp is skipped silently, a point with value
`"abc"` is skipped with a warning, and the four-point series of
`worldOneSensor` yields exactly its two parsable rows. -/
theorem C5_invalid_points_witness :
    parsePoint (some "b") (.jstr "s2") ⟨.jstr "T", .jstr "u", .jnull⟩
      (.jobj [("value", .jnum 2)]) = .ok (.skipped false) ∧
    parsePoint (some "b") (.jstr "s2") ⟨.jstr "T", .jstr "u", .jnull⟩
      (.jobj [("createdAt", .jstr "t"), ("value", .jstr "abc")]) = .ok (.skipped true) ∧
    [ (⟨.jstr "t1", some "b", .jstr "s2", some (Rat.divInt 3 2), .jstr "u", .jstr "T", .jnull⟩ : Row),
      ⟨.jstr "t2", some "b", .jstr "s2", none, .jstr "u", .jstr "T", .jnull⟩ ] =
      [ .jobj [("createdAt", .jstr "t1"), ("value", .jstr "1.5")],
        .jobj [("createdAt", .jstr "t2"), ("value", .jnull)],
        .jobj [("createdAt", .jstr "t3"), ("value", .jstr "abc")],
        .jobj [("value", .jnum 7)] ].filterMap (fun i =>
          match parsePoint (some "b") (.jstr "s2") ⟨.jstr "T", .jstr "u", .jnull⟩ i with
          | .ok (.added r) => some r
          | _ => none) := by
  refine ⟨?_, ?_, ?_⟩
  · exact C5_invalid_points_rejected.1 (some "b") (.jstr "s2")
      ⟨.jstr "T", .jstr "u", .jnull⟩ (.jobj [("value", .jnum 2)]) (by decide)
  · exact C5_invalid_points_rejected.2.2.1 (some "b") (.jstr "s2")
      ⟨.jstr "T", .jstr "u", .jnull⟩ [("createdAt", .jstr "t"), ("value", .jstr "abc")]
      (.jstr "abc") .valueError (by decide) (by decide) (by decide) (by decide)
      (Or.inl rfl)
  · exact C5_invalid_points_rejected.2.2.2 (some "b") (.jstr "s2")
      ⟨.jstr "T", .jstr "u", .jnull⟩
      [ .jobj [("createdAt", .jstr "t1"), ("value", .jstr "1.5")],
        .jobj [("createdAt", .jstr "t2"), ("value", .jnull)],
        .jobj [("createdAt", .jstr "t3"), ("value", .jstr "abc")],
        .jobj [("value", .jnum 7)] ]
      [ ⟨.jstr "t1", some "b", .jstr "s2", some (Rat.divInt 3 2), .jstr "u", .jstr "T", .jnull⟩,
        ⟨.jstr "t2", some "b", .jstr "s2", none, .jstr "u", .jstr "T", .jnull⟩ ]
      1 (by decide)

/-! ## Claim C6 -/

/-- C6: a data point whose value field is a literal `null` is not
rejected — the guarded conversion takes the `is not None` false branch,
producing a measurement tuple with a null measurement, and such a row
with a fresh conflict key is appended to the table by the insert. -/
theorem C6_null_value_preserved (box : Option String) (sid : JVal) (d : Details)
    (fs : List (String × JVal)) (ts : JVal)
    (hts : pySubscript (.jobj fs) "createdAt" = .ok ts)
    (hv : pySubscript (.jobj fs) "value" = .ok .jnull) :
    parsePoint box sid d (.jobj fs) =
      .ok (.added ⟨ts, box, sid, none, d.unit, d.type, d.icon⟩)
    ∧ ∀ db : Db,
        rowKey (⟨ts, box, sid, none, d.unit, d.type, d.icon⟩ : Row) ∉ db.map rowKey →
        insertRow db ⟨ts, box, sid, none, d.unit, d.type, d.icon⟩ =
          db ++ [⟨ts, box, sid, none, d.unit, d.type, d.icon⟩] := by
  constructor
  · have hc1 : pyContains (.jobj fs) "createdAt" = .ok true :=
      jobj_subscript_contains hts
    have hc2 : pyContains (.jobj fs) "value" = .ok true :=
      jobj_subscript_contains hv
    have hatt : parseAttempt box sid d (.jobj fs) =
        .ok ⟨ts, box, sid, none, d.unit, d.type, d.icon⟩ := by
      unfold parseAttempt
      simp [hv, hts]
    unfold parsePoint
    simp only [hc1, hc2, hatt]
  · exact fun db h => insertRow_of_key_not_mem h

/-- C6 witness: the statement applied to a concrete null-valued point
and the empty table. -/
theorem C6_null_value_witness :
    parsePoint (some "b") (.jstr "s1") ⟨.jstr "T", .jstr "u", .jnull⟩
      (.jobj [("createdAt", .jstr "t2"), ("value", .jnull)]) =
      .ok (.added ⟨.jstr "t2", some "b", .jstr "s1", none, .jstr "u", .jstr "T", .jnull⟩) ∧
    insertRow [] ⟨.jstr "t2", some "b", .jstr "s1", none, .jstr "u", .jstr "T", .jnull⟩ =
      [] ++ [⟨.jstr "t2", some "b", .jstr "s1", none, .jstr "u", .jstr "T", .jnull⟩] := by
  have h := C6_null_value_preserved (some "b") (.jstr "s1")
    ⟨.jstr "T", .jstr "u", .jnull⟩ [("createdAt", .jstr "t2"), ("value", .jnull)]
    (.jstr "t2") (by decide) (by decide)
  exact ⟨h.1, h.2 [] (by decide)⟩

/-! ## Registry membership lemmas (claims C7 and C10) -/

/-- A pair in a dict after an insert was either there before or is the
inserted pair. -/
theorem dictInsert_mem {reg : Registry} {k : JVal} {v : Details}
    {p : JVal × Details} (h : p ∈ dictInsert reg k v) :
    p ∈ reg ∨ p = (k, v) := by
  unfold dictInsert at h
  split at h
  · obtain ⟨q, hq, he⟩ := List.mem_map.mp h
    by_cases hqk : q.1 = k
    · rw [if_pos hqk] at he
      exact Or.inr he.symm
    · rw [if_neg hqk] at he
      exact Or.inl (he ▸ hq)
  · rcases List.mem_append.mp h with h1 | h1
    · exact Or.inl h1
    · right
      simpa using h1

/-- Inversion of one comprehension step: either the entry had no `_id`
and the dict is unchanged, or its key, details and insertion are
determined. -/
theorem regStep_ok_inv {reg0 : Registry} {s : JVal} {reg1 : Registry}
    (h : regStep reg0 s = .ok reg1) :
    (pyContains s "_id" = .ok false ∧ reg1 = reg0) ∨
    (∃ k d2, pyContains s "_id" = .ok true ∧ pySubscript s "_id" = .ok k ∧
      detailsOf s = .ok d2 ∧ reg1 = dictInsert reg0 k d2) := by
  unfold regStep at h
  cases hc : pyContains s "_id" with
  | error e => rw [hc] at h; cases h
  | ok b =>
    cases b with
    | false =>
      rw [hc] at h
      exact Or.inl ⟨rfl, (Except.ok.inj h).symm⟩
    | true =>
      rw [hc] at h
      cases hk : pySubscript s "_id" with
      | error e => rw [hk] at h; cases h
      | ok k =>
        rw [hk] at h
        cases hd : detailsOf s with
        | error e => rw [hd] at h; cases h
        | ok d2 =>
          rw [hd] at h
          exact Or.inr ⟨k, d2, rfl, rfl, rfl, (Except.ok.inj h).symm⟩

/-- Every pair of the built registry that was not in the accumulator
originates from a source entry that has an `_id`, with the entry's key
and details. -/
theorem buildRegistryFrom_mem :
    ∀ (ss : List JVal) (reg0 reg : Registry) (k : JVal) (d : Details),
      buildRegistryFrom reg0 ss = .ok reg → (k, d) ∈ reg →
      (k, d) ∈ reg0 ∨ ∃ s ∈ ss, pyContains s "_id" = .ok true ∧
        pySubscript s "_id" = .ok k ∧ detailsOf s = .ok d := by
  intro ss
  induction ss with
  | nil =>
    intro reg0 reg k d h hm
    left
    rw [← Except.ok.inj h] at hm
    exact hm
  | cons s ss ih =>
    intro reg0 reg k d h hm
    unfold buildRegistryFrom at h
    cases hr : regStep reg0 s with
    | error e => rw [hr] at h; cases h
    | ok reg1 =>
      rw [hr] at h
      rcases ih reg1 reg k d h hm with hin | ⟨s2, hs2, hc, hk, hd⟩
      · rcases regStep_ok_inv hr with ⟨hc, rfl⟩ | ⟨k2, d2, hc, hk2, hd2, rfl⟩
        · exact Or.inl hin
        · rcases dictInsert_mem hin with hin2 | heq
          · exact Or.inl hin2
          · right
            injection heq with h1 h2
            refine ⟨s, List.mem_cons_self s ss, hc, ?_, ?_⟩
            · rw [h1]
              exact hk2
            · rw [h2]
              exact hd2
      · exact Or.inr ⟨s2, List.mem_cons_of_mem s hs2, hc, hk, hd⟩

/-- Splitting the comprehension's input list splits the fold. -/
theorem buildRegistryFrom_append (pre rest : List JVal) :
    ∀ reg0 : Registry,
      buildRegistryFrom reg0 (pre ++ rest) =
        match buildRegistryFrom reg0 pre with
        | .error e => .error e
        | .ok reg1 => buildRegistryFrom reg1 rest := by
  induction pre with
  | nil => intro reg0; rfl
  | cons s pre ih =>
    intro reg0
    show buildRegistryFrom reg0 (s :: (pre ++ rest)) = _
    cases hr : regStep reg0 s with
    | error e => simp only [buildRegistryFrom, hr]
    | ok reg1 =>
      simp only [buildRegistryFrom, hr]
      exact ih reg1

/-! ## Claim C7 -/

/-- C7 counterexample: a sensor entry with an `_id` but no `sensorType`
gets the sentinel `"unknown"` in the registry, which is not the empty
string the claim requires. -/
theorem C7_counterexample :
    buildRegistry [.jobj [("_id", .jstr "s1")]] =
      .ok [(.jstr "s1", ⟨.jstr "unknown", .jstr "", .jnull⟩)] ∧
    (JVal.jstr "unknown" ≠ JVal.jstr "") := by decide

/-- C7 (amended): every value stored in the sensor registry is the
details record of some source entry, and in that record a missing
`sensorType` defaults to the string `"unknown"` (not the empty
string), a missing `unit` defaults to the empty string, and a missing
`icon` defaults to null. -/
theorem C7_registry_defaults :
    (∀ (ss : List JVal) (reg : Registry) (k : JVal) (d : Details),
      buildRegistry ss = .ok reg → (k, d) ∈ reg →
      ∃ s ∈ ss, detailsOf s = .ok d)
    ∧ (∀ (fs : List (String × JVal)) (d : Details),
        (∀ v, ("sensorType", v) ∉ fs) → detailsOf (.jobj fs) = .ok d →
        d.type = .jstr "unknown")
    ∧ (∀ (fs : List (String × JVal)) (d : Details),
        (∀ v, ("unit", v) ∉ fs) → detailsOf (.jobj fs) = .ok d →
        d.unit = .jstr "")
    ∧ (∀ (fs : List (String × JVal)) (d : Details),
        (∀ v, ("icon", v) ∉ fs) → detailsOf (.jobj fs) = .ok d →
        d.icon = .jnull) := by
  have hfind : ∀ (fs : List (String × JVal)) (key : String),
      (∀ v, (key, v) ∉ fs) → fs.find? (fun p => p.1 == key) = none := by
    intro fs key hno
    rw [List.find?_eq_none]
    intro x hx hbe
    have hx1 : x.1 = key := by simpa using hbe
    exact hno x.2 (by rw [← hx1]; exact hx)
  refine ⟨?_, ?_, ?_, ?_⟩
  · intro ss reg k d h hm
    rcases buildRegistryFrom_mem ss [] reg k d h hm with hin | ⟨s, hs, _, _, hd⟩
    · cases hin
    · exact ⟨s, hs, hd⟩
  · intro fs d hno hd
    unfold detailsOf at hd
    simp only [pyGet, hfind fs "sensorType" hno, Option.map_none', Option.getD_none] at hd
    rw [← Except.ok.inj hd]
  · intro fs d hno hd
    unfold detailsOf at hd
    simp only [pyGet, hfind fs "unit" hno, Option.map_none', Option.getD_none] at hd
    rw [← Except.ok.inj hd]
  · intro fs d hno hd
    unfold detailsOf at hd
    simp only [pyGet, hfind fs "icon" hno, Option.map_none', Option.getD_none] at hd
    rw [← Except.ok.inj hd]

/-- C7 witness: the amended statement applied to the one-entry
registry whose source entry has only an `_id`. -/
theorem C7_registry_defaults_witness :
    (∃ s ∈ [JVal.jobj [("_id", .jstr "s1")]],
      detailsOf s = .ok ⟨.jstr "unknown", .jstr "", .jnull⟩) ∧
    Details.type ⟨.jstr "unknown", .jstr "", .jnull⟩ = .jstr "unknown" ∧
    Details.unit ⟨.jstr "unknown", .jstr "", .jnull⟩ = .jstr "" ∧
    Details.icon ⟨.jstr "unknown", .jstr "", .jnull⟩ = .jnull := by
  have hno : ∀ key : String, key ≠ "_id" →
      ∀ v, (key, v) ∉ [("_id", JVal.jstr "s1")] := by
    intro key hk v hv
    simp at hv
    exact hk hv.1
  have hd : detailsOf (.jobj [("_id", .jstr "s1")]) =
      .ok ⟨.jstr "unknown", .jstr "", .jnull⟩ := by decide
  refine ⟨C7_registry_defaults.1 [.jobj [("_id", .jstr "s1")]]
      [(.jstr "s1", ⟨.jstr "unknown", .jstr "", .jnull⟩)]
      (.jstr "s1") ⟨.jstr "unknown", .jstr "", .jnull⟩ (by decide) (by decide),
    C7_registry_defaults.2.1 [("_id", .jstr "s1")] _ (hno "sensorType" (by decide)) hd,
    C7_registry_defaults.2.2.1 [("_id", .jstr "s1")] _ (hno "unit" (by decide)) hd,
    C7_registry_defaults.2.2.2 [("_id", .jstr "s1")] _ (hno "icon" (by decide)) hd⟩

/-! ## Claim C10 -/

/-- C10: a metadata sensor entry with no `_id` field is silently
excluded — dropping it from the list leaves the registry unchanged
(first conjunct), and every registry pair originates from an entry
that does have an `_id` (second conjunct); since the fetch/normalize/
insert loop iterates exactly over the registry, no work is ever
attempted for the excluded entry. -/
theorem C10_missing_id_excluded :
    (∀ (pre post : List JVal) (s : JVal), pyContains s "_id" = .ok false →
      buildRegistry (pre ++ s :: post) = buildRegistry (pre ++ post))
    ∧ (∀ (ss : List JVal) (reg : Registry) (k : JVal) (d : Details),
        buildRegistry ss = .ok reg → (k, d) ∈ reg →
        ∃ s2 ∈ ss, pyContains s2 "_id" = .ok true ∧
          pySubscript s2 "_id" = .ok k) := by
  constructor
  · intro pre post s hc
    unfold buildRegistry
    rw [buildRegistryFrom_append pre (s :: post) [],
      buildRegistryFrom_append pre post []]
    cases buildRegistryFrom [] pre with
    | error e => rfl
    | ok reg1 =>
      show buildRegistryFrom reg1 (s :: post) = buildRegistryFrom reg1 post
      have hstep : regStep reg1 s = .ok reg1 := by
        unfold regStep
        rw [hc]
      simp only [buildRegistryFrom, hstep]
  · intro ss reg k d h hm
    rcases buildRegistryFrom_mem ss [] reg k d h hm with hin | ⟨s2, hs2, hc, hk, _⟩
    · cases hin
    · exact ⟨s2, hs2, hc, hk⟩

/-- C10 witness: the statement applied to a concrete metadata list —
inserting an id-less entry between two others leaves the registry
unchanged, and the registry key of the one-entry list comes from its
single entry. -/
theorem C10_missing_id_witness :
    buildRegistry [.jobj [("_id", .jstr "s1")], .jobj [("unit", .jstr "u")]] =
      buildRegistry [.jobj [("_id", .jstr "s1")]] ∧
    (∃ s2 ∈ [JVal.jobj [("_id", .jstr "s1")]],
      pyContains s2 "_id" = .ok true ∧ pySubscript s2 "_id" = .ok (.jstr "s1")) := by
  constructor
  · exact C10_missing_id_excluded.1 [.jobj [("_id", .jstr "s1")]] []
      (.jobj [("unit", .jstr "u")]) (by decide)
  · exact C10_missing_id_excluded.2 [.jobj [("_id", .jstr "s1")]]
      [(.jstr "s1", ⟨.jstr "unknown", .jstr "", .jnull⟩)]
      (.jstr "s1") ⟨.jstr "unknown", .jstr "", .jnull⟩ (by decide) (by decide)

/-! ## Claim C8 -/

/-- Elements of the distinct-values fold come from the accumulator or
from the list. -/
theorem foldl_uniq_mem :
    ∀ (xs acc : List JVal) (x : JVal),
      x ∈ xs.foldl (fun acc x => if x ∈ acc then acc else acc ++ [x]) acc →
      x ∈ acc ∨ x ∈ xs := by
  intro xs
  induction xs with
  | nil =>
    intro acc x h
    exact Or.inl h
  | cons y ys ih =>
    intro acc x h
    rcases ih _ x h with h2 | h2
    · by_cases hy : y ∈ acc
      · simp only [if_pos hy] at h2
        exact Or.inl h2
      · simp only [if_neg hy] at h2
        rcases List.mem_append.mp h2 with h3 | h3
        · exact Or.inl h3
        · simp at h3
          subst h3
          exact Or.inr (List.mem_cons_self x ys)
    · exact Or.inr (List.mem_cons_of_mem _ h2)

/-- The distinct-values fold keeps every element of the accumulator and
of the list. -/
theorem mem_foldl_uniq :
    ∀ (xs acc : List JVal) (x : JVal), (x ∈ acc ∨ x ∈ xs) →
      x ∈ xs.foldl (fun acc x => if x ∈ acc then acc else acc ++ [x]) acc := by
  intro xs
  induction xs with
  | nil =>
    intro acc x h
    rcases h with h | h
    · exact h
    · cases h
  | cons y ys ih =>
    intro acc x h
    apply ih
    rcases h with h | h
    · left
      by_cases hy : y ∈ acc
      · simp only [if_pos hy]
        exact h
      · simp only [if_neg hy]
        exact List.mem_append_left _ h
    · rcases List.mem_cons.mp h with rfl | h2
      · left
        by_cases hy : x ∈ acc
        · simp only [if_pos hy]
          exact hy
        · simp only [if_neg hy]
          exact List.mem_append_right _ (by simp)
      · exact Or.inr h2

/-- Over ids that occur in the cleaned frame, `mkGraph` always yields a
panel, carrying its id. -/
theorem filterMap_mkGraph_sids (cl : List Row) :
    ∀ sids : List JVal,
      (∀ x ∈ sids, x ∈ cl.map (fun r => r.sensor_id)) →
      (sids.filterMap (mkGraph cl)).map (fun g => g.sid) = sids := by
  intro sids
  induction sids with
  | nil => intro h; rfl
  | cons sid rest ih =>
    intro h
    have hex : ∃ g, mkGraph cl sid = some g ∧ g.sid = sid := by
      obtain ⟨r, hr, hre⟩ := List.mem_map.mp (h sid (by simp))
      have hfr : r ∈ cl.filter (fun r2 => decide (r2.sensor_id = sid)) :=
        List.mem_filter.mpr ⟨hr, decide_eq_true hre⟩
      cases hsub : cl.filter (fun r2 => decide (r2.sensor_id = sid)) with
      | nil =>
        rw [hsub] at hfr
        cases hfr
      | cons r0 tail =>
        refine ⟨⟨sid,
          "Type: " ++ pyStr r0.sensor_type ++ " (ID: " ++ pyStr sid ++ ")",
          if pyTruthy r0.unit then
            pyStr r0.sensor_type ++ " (" ++ pyStr r0.unit ++ ")"
          else pyStr r0.sensor_type⟩, ?_, rfl⟩
        unfold mkGraph
        rw [hsub]
        rfl
    obtain ⟨g, hg, hgs⟩ := hex
    simp only [List.filterMap_cons, hg, List.map_cons, hgs]
    rw [ih (fun x hx => h x (List.mem_cons_of_mem _ hx))]

/-- The panel list carries exactly the distinct sensor ids of the
cleaned frame, in first-appearance order. -/
theorem buildGraphs_sids (rows : List Row) :
    (buildGraphs rows).map (fun g => g.sid) =
      uniqueFirst ((cleanRows rows).map (fun r => r.sensor_id)) := by
  unfold buildGraphs
  cases hre : rows.isEmpty with
  | true =>
    have : rows = [] := by
      cases rows with
      | nil => rfl
      | cons a l => cases hre
    subst this
    rfl
  | false =>
    simp only [hre, Bool.false_eq_true, if_false]
    exact filterMap_mkGraph_sids (cleanRows rows) _
      (fun x hx => (foldl_uniq_mem _ [] x hx).resolve_left
        (fun h => (List.not_mem_nil x) h))

/-- C8: the dashboard renders exactly one panel per distinct sensor id
remaining after cleaning (first conjunct); each panel's title is built
from its own sensor's type and id and its y-axis label carries the unit
exactly when the unit is truthy (second conjunct, with the sensor's
type and unit read off the first cleaned row of that sensor); if
nothing survives cleaning the layout holds the placeholder paragraph
(third conjunct), and otherwise the chart list, which is non-empty
(fourth conjunct). -/
theorem C8_dashboard_panels (rows : List Row) :
    ((buildGraphs rows).map (fun g => g.sid) =
      uniqueFirst ((cleanRows rows).map (fun r => r.sensor_id)))
    ∧ (∀ g ∈ buildGraphs rows, ∃ r ∈ cleanRows rows, r.sensor_id = g.sid ∧
        g.title = "Type: " ++ pyStr r.sensor_type ++ " (ID: " ++ pyStr g.sid ++ ")" ∧
        g.yaxisLabel = (if pyTruthy r.unit then
          pyStr r.sensor_type ++ " (" ++ pyStr r.unit ++ ")"
        else pyStr r.sensor_type))
    ∧ (cleanRows rows = [] → renderBody rows = .placeholder)
    ∧ (cleanRows rows ≠ [] →
        renderBody rows = .charts (buildGraphs rows) ∧ buildGraphs rows ≠ []) := by
  refine ⟨buildGraphs_sids rows, ?_, ?_, ?_⟩
  · intro g hg
    unfold buildGraphs at hg
    cases hre : rows.isEmpty with
    | true =>
      rw [hre] at hg
      simp at hg
    | false =>
      rw [hre] at hg
      simp only [Bool.false_eq_true, if_false] at hg
      obtain ⟨sid, hsid, hmk⟩ := List.mem_filterMap.mp hg
      cases hsub : (cleanRows rows).filter (fun r2 => decide (r2.sensor_id = sid)) with
      | nil =>
        unfold mkGraph at hmk
        rw [hsub] at hmk
        cases hmk
      | cons r0 tail =>
        unfold mkGraph at hmk
        rw [hsub] at hmk
        simp only [List.head?_cons] at hmk
        have hg2 := Option.some.inj hmk
        have hr0 : r0 ∈ (cleanRows rows).filter (fun r2 => decide (r2.sensor_id = sid)) := by
          rw [hsub]
          exact List.mem_cons_self r0 tail
        have hr0cl := (List.mem_filter.mp hr0).1
        have hr0sid : r0.sensor_id = sid := of_decide_eq_true (List.mem_filter.mp hr0).2
        refine ⟨r0, hr0cl, ?_, ?_, ?_⟩
        · rw [← hg2]
          exact hr0sid
        · rw [← hg2]
        · rw [← hg2]
  · intro hcl
    unfold renderBody buildGraphs
    cases hre : rows.isEmpty with
    | true => simp [hre]
    | false => simp [hre, hcl, uniqueFirst]
  · intro hcl
    have hgs : buildGraphs rows ≠ [] := by
      intro h0
      obtain ⟨r0, hr0⟩ := List.exists_mem_of_ne_nil (cleanRows rows) hcl
      have hsid := List.mem_map_of_mem (fun r => r.sensor_id) hr0
      have huniq := mem_foldl_uniq ((cleanRows rows).map fun r => r.sensor_id) []
        r0.sensor_id (Or.inr hsid)
      have heq := buildGraphs_sids rows
      rw [h0] at heq
      simp only [List.map_nil] at heq
      unfold uniqueFirst at heq
      rw [← heq] at huniq
      exact (List.not_mem_nil _) huniq
    refine ⟨?_, hgs⟩
    unfold renderBody
    have hbe : (buildGraphs rows).isEmpty = false := by
      cases hb : buildGraphs rows with
      | nil => exact absurd hb hgs
      | cons a l => rfl
    simp only [hbe, Bool.false_eq_true, if_false]

/-- A dashboard frame with two sensors of different types, one of them
with an empty unit, plus one null measurement that cleaning drops. -/
def dfTwoTypes : List Row :=
  [ ⟨.jstr "t1", some "b", .jstr "sA", some 1, .jstr "degC", .jstr "Temperature", .jnull⟩,
    ⟨.jstr "t2", some "b", .jstr "sA", none, .jstr "degC", .jstr "Temperature", .jnull⟩,
    ⟨.jstr "t3", some "b", .jstr "sB", some 2, .jstr "", .jstr "Humidity", .jnull⟩ ]

/-- A frame whose only row has a null measurement, so cleaning empties
it. -/
def dfAllNull : List Row :=
  [ ⟨.jstr "t1", some "b", .jstr "sA", none, .jstr "degC", .jstr "Temperature", .jnull⟩ ]

/-- C8 witness: the panel statement applied to concrete frames — one
panel per distinct id, the `sB` panel labeled with its own type and its
empty unit omitted, and the all-null frame rendering the placeholder. -/
theorem C8_dashboard_panels_witness :
    ((buildGraphs dfTwoTypes).map (fun g => g.sid) =
      uniqueFirst ((cleanRows dfTwoTypes).map (fun r => r.sensor_id))) ∧
    (∃ r ∈ cleanRows dfTwoTypes,
      r.sensor_id = Graph.sid ⟨.jstr "sB", "Type: Humidity (ID: sB)", "Humidity"⟩ ∧
      Graph.title ⟨.jstr "sB", "Type: Humidity (ID: sB)", "Humidity"⟩ =
        "Type: " ++ pyStr r.sensor_type ++ " (ID: " ++
          pyStr (Graph.sid ⟨.jstr "sB", "Type: Humidity (ID: sB)", "Humidity"⟩) ++ ")" ∧
      Graph.yaxisLabel ⟨.jstr "sB", "Type: Humidity (ID: sB)", "Humidity"⟩ =
        (if pyTruthy r.unit then
          pyStr r.sensor_type ++ " (" ++ pyStr r.unit ++ ")"
        else pyStr r.sensor_type)) ∧
    renderBody dfAllNull = .placeholder ∧
    (renderBody dfTwoTypes = .charts (buildGraphs dfTwoTypes) ∧
      buildGraphs dfTwoTypes ≠ []) := by
  refine ⟨(C8_dashboard_panels dfTwoTypes).1, ?_,
    (C8_dashboard_panels dfAllNull).2.2.1 (by decide),
    (C8_dashboard_panels dfTwoTypes).2.2.2 (by decide)⟩
  exact (C8_dashboard_panels dfTwoTypes).2.1
    ⟨.jstr "sB", "Type: Humidity (ID: sB)", "Humidity"⟩ (by decide)

/-! ## Claim C9 -/

/-- C9: the dashboard read returns exactly the rows of the configured
box (membership-wise it is a permutation of the box's rows), sorted by
the `(sensor_type, sensor_id, timestamp)` key. -/
theorem C9_read_projection (db : Db) (box : Option String) :
    (∀ r ∈ dashboardQuery db box, r.box_id = box)
    ∧ List.Sorted rowLe (dashboardQuery db box)
    ∧ List.Perm (dashboardQuery db box)
        (db.filter (fun r => decide (r.box_id = box))) := by
  refine ⟨?_, List.sorted_insertionSort rowLe _, List.perm_insertionSort rowLe _⟩
  intro r hr
  have h2 : r ∈ db.filter (fun r => decide (r.box_id = box)) := by
    simpa [dashboardQuery] using hr
  exact of_decide_eq_true (List.mem_filter.mp h2).2

/-- A table with rows of two boxes, out of order. -/
def dbMixed : Db :=
  [ ⟨.jstr "t2", some "b", .jstr "s2", some 1, .jstr "u", .jstr "T2", .jnull⟩,
    ⟨.jstr "t9", some "c", .jstr "s1", some 2, .jstr "u", .jstr "T1", .jnull⟩,
    ⟨.jstr "t1", some "b", .jstr "s1", some 3, .jstr "u", .jstr "T1", .jnull⟩ ]

/-- C9 witness: the projection statement applied to the concrete mixed
table — a row of the query output belongs to the requested box, and the
output is sorted and a permutation of the box's rows. -/
theorem C9_read_projection_witness :
    Row.box_id ⟨.jstr "t1", some "b", .jstr "s1", some 3, .jstr "u", .jstr "T1", .jnull⟩ =
      some "b" ∧
    List.Sorted rowLe (dashboardQuery dbMixed (some "b")) ∧
    List.Perm (dashboardQuery dbMixed (some "b"))
      (dbMixed.filter (fun r => decide (r.box_id = some "b"))) := by
  have h := C9_read_projection dbMixed (some "b")
  refine ⟨?_, h.2.1, h.2.2⟩
  exact h.1 ⟨.jstr "t1", some "b", .jstr "s1", some 3, .jstr "u", .jstr "T1", .jnull⟩
    (by simp only [dashboardQuery, List.mem_insertionSort]; decide)
